import Mathlib

/-!
Shallow embedding of `fit::optional<T>` from
`src/system/ulib/fit/include/lib/fit/optional.h`.

The C++ class holds a boolean discriminant `has_value_` and a raw union
slot `value_` in which a `T` is placement-new constructed and manually
destroyed.  We model the raw storage slot as an `Option T`: `some v`
means the slot currently holds a live, constructed `T` with value `v`;
`none` means the slot's bytes hold no live object (never constructed,
or already destroyed).  The lifecycle primitives below model
placement-new, explicit destructor call, and raw reads/writes of the
slot; each misuse that would be undefined behaviour in C++ (reading or
assigning a destroyed object, destroying twice, constructing over a
live object) is an explicit error of the total embedding.

A `Stats` record mirrors the test suite's `slot::balance`
instrumentation (`src/system/utest/fit/optional_tests.cpp`): it counts
how many `T` objects have been constructed in, and destroyed from,
optional storage slots.
-/

namespace fit

/-- Errors of the total embedding.  `badIndex` models naming an object
that does not exist in the environment; the remaining constructors are
the lifecycle violations that would be undefined behaviour in C++,
plus `assertFailed` for a failed `assert(...)`. -/
inductive Err where
  | badIndex
  | constructOverLive
  | destroyDead
  | readDead
  | writeDead
  | assertFailed
  deriving DecidableEq

/-- Constructor/destructor counters, mirroring the test suite's
`slot::balance` bookkeeping (split into the two directions). -/
structure Stats where
  ctors : Nat
  dtors : Nat
  deriving DecidableEq

/-- The sentinel type `fit::nullopt_t`. -/
structure nullopt_t where
  deriving DecidableEq

/-- The canonical sentinel instance `fit::nullopt`. -/
def nullopt : nullopt_t := ⟨⟩

/-- The state of one `fit::optional<T>` object: the discriminant field
`has_value_` and the storage slot `value_` (see the file comment). -/
structure optional (T : Type) where
  has_value_ : Bool
  value_ : Option T
  deriving DecidableEq

/-- Placement-new of a `T` with value `v` into a slot (`new (&value_)
T(...)`).  Constructing over a live object is a lifecycle error. -/
def constructAt {T : Type} (s : Option T) (v : T) (st : Stats) :
    Except Err (Option T × Stats) :=
  match s with
  | none => .ok (some v, ⟨st.ctors + 1, st.dtors⟩)
  | some _ => .error .constructOverLive

/-- Explicit destructor call on a slot (`value_.~T()`).  Destroying a
slot with no live object is a double-destroy. -/
def destroyAt {T : Type} (s : Option T) (st : Stats) :
    Except Err (Option T × Stats) :=
  match s with
  | some _ => .ok (none, ⟨st.ctors, st.dtors + 1⟩)
  | none => .error .destroyDead

/-- Reading the `T` stored in a slot (an access to `value_`).  Reading
a slot with no live object is a use of a destroyed object. -/
def readAt {T : Type} (s : Option T) : Except Err T :=
  match s with
  | some v => .ok v
  | none => .error .readDead

/-- Assigning into the live `T` of a slot (`value_ = ...`), which uses
`T`'s assignment operator on the existing object: no construction and
no destruction happens.  Assigning into a dead slot is an error. -/
def writeAt {T : Type} (s : Option T) (v : T) : Except Err (Option T) :=
  match s with
  | some _ => .ok (some v)
  | none => .error .writeDead

/-- `std::swap` on the live `T`s of two slots (`swap(value_,
other.value_)`): exchanges the two values, constructing and destroying
nothing in either slot. -/
def swapAt {T : Type} (a b : Option T) : Except Err (Option T × Option T) :=
  match a, b with
  | some x, some y => .ok (some y, some x)
  | _, _ => .error .readDead

namespace optional

/-- `constexpr optional() : has_value_(false) {}` -/
def defaultCtor {T : Type} : optional T := ⟨false, none⟩

/-- `explicit constexpr optional(nullopt_t) : has_value_(false) {}` -/
def nulloptCtor {T : Type} (_ : nullopt_t) : optional T := ⟨false, none⟩

/-- `explicit constexpr optional(T value) : has_value_(true),
value_(std::move(value)) {}` — the member initialiser constructs a `T`
in the slot. -/
def valueCtor {T : Type} (v : T) (st : Stats) : optional T × Stats :=
  (⟨true, some v⟩, ⟨st.ctors + 1, st.dtors⟩)

/-- `optional(const optional& other)`: copies `other.has_value_`, and
if a value is present placement-new constructs a copy of
`other.value_` in the fresh slot.  `other` is untouched. -/
def copyCtor {T : Type} (other : optional T) (st : Stats) :
    Except Err (optional T × Stats) :=
  if other.has_value_ then do
    let v ← readAt other.value_
    let (s, st) ← constructAt none v st
    .ok (⟨other.has_value_, s⟩, st)
  else
    .ok (⟨other.has_value_, none⟩, st)

/-- `optional(optional&& other)`: copies `other.has_value_`; if a
value is present, placement-new constructs a `T` moved from
`other.value_`, then runs `other.value_.~T()` and clears
`other.has_value_`.  Returns (new object, updated source, stats). -/
def moveCtor {T : Type} (other : optional T) (st : Stats) :
    Except Err (optional T × optional T × Stats) :=
  if other.has_value_ then do
    let v ← readAt other.value_
    let (s, st) ← constructAt none v st
    let (os, st) ← destroyAt other.value_ st
    .ok (⟨other.has_value_, s⟩, ⟨false, os⟩, st)
  else
    .ok (⟨other.has_value_, none⟩, other, st)

/-- `~optional()`: if a value is present, destroy it. -/
def dtorRun {T : Type} (self : optional T) (st : Stats) : Except Err Stats :=
  if self.has_value_ then do
    let (_, st) ← destroyAt self.value_ st
    .ok st
  else
    .ok st

/-- `constexpr T& value()` (and the identical `const` overload):
`assert(has_value_); return value_;`. -/
def value {T : Type} (self : optional T) : Except Err T :=
  if self.has_value_ then readAt self.value_ else .error .assertFailed

/-- `constexpr T* operator->()` (and the identical `const` overload):
`return &value_;` — no assertion; the result is the object at the
slot's address, modelled as the read of the slot it will be used as. -/
def derefArrow {T : Type} (self : optional T) : Except Err T :=
  readAt self.value_

/-- `constexpr T& operator*()` (and the identical `const` overload):
`return value_;` — no assertion. -/
def derefStar {T : Type} (self : optional T) : Except Err T :=
  readAt self.value_

/-- `constexpr T value_or(U&& default_value) const`:
`return has_value_ ? value_ : static_cast<T>(...);`.  The method is
`const`: it returns a copy and never changes the optional, which the
embedding reflects by not producing an updated state at all. -/
def value_or {T : Type} (self : optional T) (default_value : T) : Except Err T :=
  if self.has_value_ then readAt self.value_ else .ok default_value

/-- `bool has_value() const { return has_value_; }` -/
def has_value {T : Type} (self : optional T) : Bool :=
  self.has_value_

/-- `explicit operator bool() const { return has_value(); }` -/
def toBool {T : Type} (self : optional T) : Bool :=
  self.has_value

/-- `void reset()`: if a value is present, destroy it and clear the
discriminant; otherwise do nothing. -/
def reset {T : Type} (self : optional T) (st : Stats) :
    Except Err (optional T × Stats) :=
  if self.has_value_ then do
    let (s, st) ← destroyAt self.value_ st
    .ok (⟨false, s⟩, st)
  else
    .ok (self, st)

/-- Body of `operator=(const optional& other)` after the identity
check `&other == this` has failed (the two objects are distinct).
Four cases on (this-has-value, other-has-value); `other` is a `const`
reference and is unchanged, so only the new `*this` is returned. -/
def copyAssignDistinct {T : Type} (self other : optional T) (st : Stats) :
    Except Err (optional T × Stats) :=
  if self.has_value_ then
    if other.has_value_ then do
      let v ← readAt other.value_
      let s ← writeAt self.value_ v
      .ok (⟨self.has_value_, s⟩, st)
    else
      reset self st
  else
    if other.has_value_ then do
      let v ← readAt other.value_
      let (s, st) ← constructAt self.value_ v st
      .ok (⟨true, s⟩, st)
    else
      .ok (self, st)

/-- Body of `operator=(optional&& other)` after the identity check
`&other == this` has failed.  Returns (new `*this`, new `other`,
stats). -/
def moveAssignDistinct {T : Type} (self other : optional T) (st : Stats) :
    Except Err (optional T × optional T × Stats) :=
  if self.has_value_ then
    if other.has_value_ then do
      let v ← readAt other.value_
      let s ← writeAt self.value_ v
      let (os, st) ← destroyAt other.value_ st
      .ok (⟨self.has_value_, s⟩, ⟨false, os⟩, st)
    else do
      let (s, st) ← reset self st
      .ok (s, other, st)
  else
    if other.has_value_ then do
      let v ← readAt other.value_
      let (s, st) ← constructAt self.value_ v st
      let (os, st) ← destroyAt other.value_ st
      .ok (⟨true, s⟩, ⟨false, os⟩, st)
    else
      .ok (self, other, st)

/-- `operator=(nullopt_t) { reset(); return *this; }` -/
def nulloptAssign {T : Type} (self : optional T) (_ : nullopt_t) (st : Stats) :
    Except Err (optional T × Stats) :=
  reset self st

/-- `operator=(T value)`: if a value is present, move-assign into the
existing `T`; otherwise placement-new construct and set the
discriminant. -/
def valueAssign {T : Type} (self : optional T) (v : T) (st : Stats) :
    Except Err (optional T × Stats) :=
  if self.has_value_ then do
    let s ← writeAt self.value_ v
    .ok (⟨self.has_value_, s⟩, st)
  else do
    let (s, st) ← constructAt self.value_ v st
    .ok (⟨true, s⟩, st)

/-- Body of `void swap(optional& other)` after the identity check
`&other == this` has failed.  Returns (new `*this`, new `other`,
stats). -/
def swapDistinct {T : Type} (self other : optional T) (st : Stats) :
    Except Err (optional T × optional T × Stats) :=
  if self.has_value_ then
    if other.has_value_ then do
      let (a, b) ← swapAt self.value_ other.value_
      .ok (⟨self.has_value_, a⟩, ⟨other.has_value_, b⟩, st)
    else do
      let v ← readAt self.value_
      let (os, st) ← constructAt other.value_ v st
      let (s, st) ← destroyAt self.value_ st
      .ok (⟨false, s⟩, ⟨true, os⟩, st)
  else
    if other.has_value_ then do
      let v ← readAt other.value_
      let (s, st) ← constructAt self.value_ v st
      let (os, st) ← destroyAt other.value_ st
      .ok (⟨true, s⟩, ⟨false, os⟩, st)
    else
      .ok (self, other, st)

end optional

/-!
Free comparison operators.  The heterogeneous forms take the `T`/`U`
comparison of the contained types as an explicit function argument
(`eq` models `operator==` on `T`/`U`, `ne` models `operator!=`); the
bodies transcribe the short-circuit structure of the C++ expressions,
with every `*lhs` / `*rhs` access going through `optional.derefStar`
so that an access to an empty optional's storage is visible as an
error of the total embedding.
-/

/-- `operator==(const optional<T>& lhs, nullopt_t) { return
!lhs.has_value(); }` -/
def eqOptNullopt {T : Type} (lhs : optional T) (_ : nullopt_t) : Bool :=
  !(lhs.has_value)

/-- `operator!=(const optional<T>& lhs, nullopt_t) { return
lhs.has_value(); }` -/
def neOptNullopt {T : Type} (lhs : optional T) (_ : nullopt_t) : Bool :=
  lhs.has_value

/-- `operator==(nullopt_t, const optional<T>& rhs) { return
!rhs.has_value(); }` -/
def eqNulloptOpt {T : Type} (_ : nullopt_t) (rhs : optional T) : Bool :=
  !(rhs.has_value)

/-- `operator!=(nullopt_t, const optional<T>& rhs) { return
rhs.has_value(); }` -/
def neNulloptOpt {T : Type} (_ : nullopt_t) (rhs : optional T) : Bool :=
  rhs.has_value

/-- `operator==(const optional<T>& lhs, const optional<U>& rhs) {
return (lhs.has_value() == rhs.has_value()) && (!lhs.has_value() ||
*lhs == *rhs); }` with C++ short-circuit evaluation. -/
def eqOptOpt {T U : Type} (eq : T → U → Bool)
    (lhs : optional T) (rhs : optional U) : Except Err Bool :=
  if lhs.has_value == rhs.has_value then
    if !(lhs.has_value) then
      .ok true
    else do
      let a ← lhs.derefStar
      let b ← rhs.derefStar
      .ok (eq a b)
  else
    .ok false

/-- `operator!=(const optional<T>& lhs, const optional<U>& rhs) {
return (lhs.has_value() != rhs.has_value()) || (lhs.has_value() &&
*lhs != *rhs); }` with C++ short-circuit evaluation. -/
def neOptOpt {T U : Type} (ne : T → U → Bool)
    (lhs : optional T) (rhs : optional U) : Except Err Bool :=
  if lhs.has_value != rhs.has_value then
    .ok true
  else if lhs.has_value then do
    let a ← lhs.derefStar
    let b ← rhs.derefStar
    .ok (ne a b)
  else
    .ok false

/-- `operator==(const optional<T>& lhs, const U& rhs) { return
lhs.has_value() && *lhs == rhs; }` -/
def eqOptVal {T U : Type} (eq : T → U → Bool)
    (lhs : optional T) (rhs : U) : Except Err Bool :=
  if lhs.has_value then do
    let a ← lhs.derefStar
    .ok (eq a rhs)
  else
    .ok false

/-- `operator!=(const optional<T>& lhs, const U& rhs) { return
!lhs.has_value() || *lhs != rhs; }` -/
def neOptVal {T U : Type} (ne : T → U → Bool)
    (lhs : optional T) (rhs : U) : Except Err Bool :=
  if !(lhs.has_value) then
    .ok true
  else do
    let a ← lhs.derefStar
    .ok (ne a rhs)

/-- `operator==(const T& lhs, const optional<U>& rhs) { return
rhs.has_value() && lhs == *rhs; }` -/
def eqValOpt {T U : Type} (eq : T → U → Bool)
    (lhs : T) (rhs : optional U) : Except Err Bool :=
  if rhs.has_value then do
    let b ← rhs.derefStar
    .ok (eq lhs b)
  else
    .ok false

/-- `operator!=(const T& lhs, const optional<U>& rhs) { return
!rhs.has_value() || lhs != *rhs; }` -/
def neValOpt {T U : Type} (ne : T → U → Bool)
    (lhs : T) (rhs : optional U) : Except Err Bool :=
  if !(rhs.has_value) then
    .ok true
  else do
    let b ← rhs.derefStar
    .ok (ne lhs b)

/-!
Sequences of public operations.  An environment is the list of
currently live `optional<T>` objects; its indices play the role of the
objects' addresses, so two operands alias exactly when their indices
are equal — this is what the C++ identity checks `&other == this`
compare.  Constructors append a fresh object at the end; the
destructor removes an object.  `step` runs one operation, `run` a
whole sequence.
-/

/-- One public operation of `fit::optional<T>`, naming its operand
objects by their position in the environment. -/
inductive Op (T : Type) where
  | defaultCtor
  | nulloptCtor
  | valueCtor (v : T)
  | copyCtor (src : Nat)
  | moveCtor (src : Nat)
  | copyAssign (dst src : Nat)
  | moveAssign (dst src : Nat)
  | valueAssign (dst : Nat) (v : T)
  | nulloptAssign (dst : Nat)
  | resetOp (dst : Nat)
  | swapOp (a b : Nat)
  | dtor (dst : Nat)

/-- The full member `operator=(const optional&)` on the environment:
the identity check `&other == this` succeeds exactly when the two
indices coincide, in which case the operator returns `*this`
immediately; otherwise the four-case body `copyAssignDistinct`
runs. -/
def copyAssignMember {T : Type} (env : List (optional T)) (st : Stats)
    (dst src : Nat) : Except Err (List (optional T) × Stats) :=
  match env[dst]?, env[src]? with
  | some a, some b =>
    if dst = src then
      .ok (env, st)
    else do
      let (a2, st) ← optional.copyAssignDistinct a b st
      .ok (env.set dst a2, st)
  | _, _ => .error .badIndex

/-- The full member `operator=(optional&&)` on the environment, with
the identity check `&other == this` as in `copyAssignMember`. -/
def moveAssignMember {T : Type} (env : List (optional T)) (st : Stats)
    (dst src : Nat) : Except Err (List (optional T) × Stats) :=
  match env[dst]?, env[src]? with
  | some a, some b =>
    if dst = src then
      .ok (env, st)
    else do
      let (a2, b2, st) ← optional.moveAssignDistinct a b st
      .ok ((env.set dst a2).set src b2, st)
  | _, _ => .error .badIndex

/-- The full member `void swap(optional& other)` on the environment,
with the identity check `&other == this`. -/
def swapMember {T : Type} (env : List (optional T)) (st : Stats)
    (a b : Nat) : Except Err (List (optional T) × Stats) :=
  match env[a]?, env[b]? with
  | some x, some y =>
    if a = b then
      .ok (env, st)
    else do
      let (x2, y2, st) ← optional.swapDistinct x y st
      .ok ((env.set a x2).set b y2, st)
  | _, _ => .error .badIndex

/-- The free function `template <typename T> void swap(optional<T>&
a, optional<T>& b) { a.swap(b); }` — it delegates to the member
swap. -/
def swapFree {T : Type} (env : List (optional T)) (st : Stats)
    (a b : Nat) : Except Err (List (optional T) × Stats) :=
  swapMember env st a b

/-- Run one public operation on the environment. -/
def step {T : Type} (env : List (optional T)) (st : Stats) (op : Op T) :
    Except Err (List (optional T) × Stats) :=
  match op with
  | .defaultCtor => .ok (env ++ [optional.defaultCtor], st)
  | .nulloptCtor => .ok (env ++ [optional.nulloptCtor nullopt], st)
  | .valueCtor v =>
    let (o, st) := optional.valueCtor v st
    .ok (env ++ [o], st)
  | .copyCtor src =>
    match env[src]? with
    | some a => do
      let (o, st) ← optional.copyCtor a st
      .ok (env ++ [o], st)
    | none => .error .badIndex
  | .moveCtor src =>
    match env[src]? with
    | some a => do
      let (o, a2, st) ← optional.moveCtor a st
      .ok ((env.set src a2) ++ [o], st)
    | none => .error .badIndex
  | .copyAssign dst src => copyAssignMember env st dst src
  | .moveAssign dst src => moveAssignMember env st dst src
  | .valueAssign dst v =>
    match env[dst]? with
    | some a => do
      let (a2, st) ← optional.valueAssign a v st
      .ok (env.set dst a2, st)
    | none => .error .badIndex
  | .nulloptAssign dst =>
    match env[dst]? with
    | some a => do
      let (a2, st) ← optional.nulloptAssign a nullopt st
      .ok (env.set dst a2, st)
    | none => .error .badIndex
  | .resetOp dst =>
    match env[dst]? with
    | some a => do
      let (a2, st) ← optional.reset a st
      .ok (env.set dst a2, st)
    | none => .error .badIndex
  | .swapOp a b => swapFree env st a b
  | .dtor dst =>
    match env[dst]? with
    | some a => do
      let st ← optional.dtorRun a st
      .ok (env.eraseIdx dst, st)
    | none => .error .badIndex

/-- Run a whole sequence of public operations. -/
def run {T : Type} (env : List (optional T)) (st : Stats) :
    List (Op T) → Except Err (List (optional T) × Stats)
  | [] => .ok (env, st)
  | op :: ops => do
    let (p : List (optional T) × Stats) ← step env st op
    run p.1 p.2 ops

/-- The representation invariant of one `fit::optional<T>` object: the
storage slot holds a live `T` exactly when the discriminant
`has_value_` says so. -/
def OptInv {T : Type} (o : optional T) : Prop :=
  o.value_.isSome = o.has_value_

instance {T : Type} (o : optional T) : Decidable (OptInv o) :=
  inferInstanceAs (Decidable (_ = _))

/-- Number of live contained values in the environment. -/
def liveCount {T : Type} (env : List (optional T)) : Nat :=
  env.countP (fun o => o.has_value_)

/-- The global invariant: every object is well-formed, and the net
constructor/destructor balance equals the number of live contained
values — the `slot::balance` check of the test suite. -/
def EnvInv {T : Type} (env : List (optional T)) (st : Stats) : Prop :=
  (∀ o ∈ env, OptInv o) ∧ st.ctors = st.dtors + liveCount env

instance {T : Type} (env : List (optional T)) (st : Stats) :
    Decidable (EnvInv env st) :=
  inferInstanceAs (Decidable (_ ∧ _))

/-!
Closed forms of the operations on well-formed objects.  Each lemma
shows that the operation hits none of the lifecycle errors and
computes the resulting object(s) and constructor/destructor counters.
-/

theorem copyCtor_eq {T : Type} (a : optional T) (st : Stats) (h : OptInv a) :
    optional.copyCtor a st =
      .ok (⟨a.has_value_, a.value_⟩,
        if a.has_value_ then ⟨st.ctors + 1, st.dtors⟩ else st) := by
  obtain ⟨hv, s⟩ := a
  cases hv <;> cases s <;> first | rfl | simp [OptInv] at h

theorem moveCtor_eq {T : Type} (a : optional T) (st : Stats) (h : OptInv a) :
    optional.moveCtor a st =
      .ok (⟨a.has_value_, a.value_⟩, ⟨false, none⟩,
        if a.has_value_ then ⟨st.ctors + 1, st.dtors + 1⟩ else st) := by
  obtain ⟨hv, s⟩ := a
  cases hv <;> cases s <;> first | rfl | simp [OptInv] at h

theorem dtorRun_eq {T : Type} (a : optional T) (st : Stats) (h : OptInv a) :
    optional.dtorRun a st =
      .ok (if a.has_value_ then ⟨st.ctors, st.dtors + 1⟩ else st) := by
  obtain ⟨hv, s⟩ := a
  cases hv <;> cases s <;> first | rfl | simp [OptInv] at h

theorem reset_eq {T : Type} (a : optional T) (st : Stats) (h : OptInv a) :
    optional.reset a st =
      .ok (⟨false, none⟩,
        if a.has_value_ then ⟨st.ctors, st.dtors + 1⟩ else st) := by
  obtain ⟨hv, s⟩ := a
  cases hv <;> cases s <;> first | rfl | simp [OptInv] at h

theorem valueAssign_eq {T : Type} (a : optional T) (v : T) (st : Stats)
    (h : OptInv a) :
    optional.valueAssign a v st =
      .ok (⟨true, some v⟩,
        if a.has_value_ then st else ⟨st.ctors + 1, st.dtors⟩) := by
  obtain ⟨hv, s⟩ := a
  cases hv <;> cases s <;> first | rfl | simp [OptInv] at h

theorem copyAssignDistinct_eq {T : Type} (a b : optional T) (st : Stats)
    (ha : OptInv a) (hb : OptInv b) :
    optional.copyAssignDistinct a b st =
      .ok (⟨b.has_value_, b.value_⟩,
        if a.has_value_ then
          (if b.has_value_ then st else ⟨st.ctors, st.dtors + 1⟩)
        else
          (if b.has_value_ then ⟨st.ctors + 1, st.dtors⟩ else st)) := by
  obtain ⟨hv, s⟩ := a
  obtain ⟨hv2, s2⟩ := b
  cases hv <;> cases s <;> cases hv2 <;> cases s2 <;>
    first | rfl | simp [OptInv] at ha hb

theorem moveAssignDistinct_eq {T : Type} (a b : optional T) (st : Stats)
    (ha : OptInv a) (hb : OptInv b) :
    optional.moveAssignDistinct a b st =
      .ok (⟨b.has_value_, b.value_⟩, ⟨false, none⟩,
        if a.has_value_ then
          (if b.has_value_ then ⟨st.ctors, st.dtors + 1⟩
           else ⟨st.ctors, st.dtors + 1⟩)
        else
          (if b.has_value_ then ⟨st.ctors + 1, st.dtors + 1⟩ else st)) := by
  obtain ⟨hv, s⟩ := a
  obtain ⟨hv2, s2⟩ := b
  cases hv <;> cases s <;> cases hv2 <;> cases s2 <;>
    first | rfl | simp [OptInv] at ha hb

theorem swapDistinct_eq {T : Type} (a b : optional T) (st : Stats)
    (ha : OptInv a) (hb : OptInv b) :
    optional.swapDistinct a b st =
      .ok (⟨b.has_value_, b.value_⟩, ⟨a.has_value_, a.value_⟩,
        if a.has_value_ = b.has_value_ then st
        else ⟨st.ctors + 1, st.dtors + 1⟩) := by
  obtain ⟨hv, s⟩ := a
  obtain ⟨hv2, s2⟩ := b
  cases hv <;> cases s <;> cases hv2 <;> cases s2 <;>
    first | rfl | simp [OptInv] at ha hb

/-!
Environment bookkeeping: how the global invariant moves through
append, update and removal of objects.
-/

theorem countP_set_add {α : Type} (p : α → Bool) (env : List α) (i : Nat)
    (a b : α) (h : env[i]? = some a) :
    (env.set i b).countP p + (if p a then 1 else 0)
      = env.countP p + (if p b then 1 else 0) := by
  induction env generalizing i with
  | nil => simp at h
  | cons x xs ih =>
    cases i with
    | zero =>
      simp only [List.getElem?_cons_zero, Option.some.injEq] at h
      subst h
      simp only [List.set_cons_zero, List.countP_cons]
      omega
    | succ n =>
      simp only [List.getElem?_cons_succ] at h
      have := ih n h
      simp only [List.set_cons_succ, List.countP_cons]
      omega

theorem countP_eraseIdx_add {α : Type} (p : α → Bool) (env : List α) (i : Nat)
    (a : α) (h : env[i]? = some a) :
    (env.eraseIdx i).countP p + (if p a then 1 else 0) = env.countP p := by
  induction env generalizing i with
  | nil => simp at h
  | cons x xs ih =>
    cases i with
    | zero =>
      simp only [List.getElem?_cons_zero, Option.some.injEq] at h
      subst h
      simp only [List.eraseIdx, List.countP_cons]
    | succ n =>
      simp only [List.getElem?_cons_succ] at h
      have := ih n h
      simp only [List.eraseIdx, List.countP_cons]
      omega

theorem envInv_append {T : Type} {env : List (optional T)} {st st2 : Stats}
    {o : optional T} (h : EnvInv env st) (ho : OptInv o)
    (hc : st2.ctors + st.dtors
        = st.ctors + st2.dtors + (if o.has_value_ then 1 else 0)) :
    EnvInv (env ++ [o]) st2 := by
  obtain ⟨hall, hbal⟩ := h
  constructor
  · intro x hx
    rcases List.mem_append.1 hx with hx | hx
    · exact hall x hx
    · simp at hx
      subst hx
      exact ho
  · have : liveCount (env ++ [o])
        = liveCount env + (if o.has_value_ then 1 else 0) := by
      simp [liveCount, List.countP_append, List.countP_cons]
    omega

theorem envInv_set {T : Type} {env : List (optional T)} {st st2 : Stats}
    {i : Nat} {a b : optional T} (h : EnvInv env st)
    (hget : env[i]? = some a) (hb : OptInv b)
    (hc : st2.ctors + st.dtors + (if a.has_value_ then 1 else 0)
        = st.ctors + st2.dtors + (if b.has_value_ then 1 else 0)) :
    EnvInv (env.set i b) st2 := by
  obtain ⟨hall, hbal⟩ := h
  constructor
  · intro x hx
    rcases List.mem_or_eq_of_mem_set hx with hx | hx
    · exact hall x hx
    · subst hx
      exact hb
  · have := countP_set_add (fun o => o.has_value_) env i a b hget
    simp only [] at this
    simp only [liveCount] at hbal ⊢
    omega

theorem envInv_set2 {T : Type} {env : List (optional T)} {st st2 : Stats}
    {i j : Nat} {a b a2 b2 : optional T} (h : EnvInv env st)
    (hi : env[i]? = some a) (hj : env[j]? = some b) (hij : i ≠ j)
    (ha2 : OptInv a2) (hb2 : OptInv b2)
    (hc : st2.ctors + st.dtors + (if a.has_value_ then 1 else 0)
            + (if b.has_value_ then 1 else 0)
        = st.ctors + st2.dtors + (if a2.has_value_ then 1 else 0)
            + (if b2.has_value_ then 1 else 0)) :
    EnvInv ((env.set i a2).set j b2) st2 := by
  obtain ⟨hall, hbal⟩ := h
  constructor
  · intro x hx
    rcases List.mem_or_eq_of_mem_set hx with hx | hx
    · rcases List.mem_or_eq_of_mem_set hx with hx | hx
      · exact hall x hx
      · subst hx; exact ha2
    · subst hx; exact hb2
  · have h1 := countP_set_add (fun o => o.has_value_) env i a a2 hi
    have hj2 : (env.set i a2)[j]? = some b := by
      rw [List.getElem?_set_ne hij]
      exact hj
    have h2 := countP_set_add (fun o => o.has_value_) (env.set i a2) j b b2 hj2
    simp only [] at h1 h2
    simp only [liveCount] at hbal ⊢
    omega

theorem envInv_erase {T : Type} {env : List (optional T)} {st st2 : Stats}
    {i : Nat} {a : optional T} (h : EnvInv env st)
    (hget : env[i]? = some a)
    (hc : st2.ctors + st.dtors + (if a.has_value_ then 1 else 0)
        = st.ctors + st2.dtors) :
    EnvInv (env.eraseIdx i) st2 := by
  obtain ⟨hall, hbal⟩ := h
  constructor
  · intro x hx
    exact hall x (List.mem_of_mem_eraseIdx hx)
  · have := countP_eraseIdx_add (fun o => o.has_value_) env i a hget
    simp only [] at this
    simp only [liveCount] at hbal ⊢
    omega

/-- One step from an invariant state either succeeds in an invariant
state or fails only because an operand index named no object — never
with a lifecycle error. -/
theorem step_preserves {T : Type} (env : List (optional T)) (st : Stats)
    (op : Op T) (h : EnvInv env st) :
    (match step env st op with
     | .ok p => EnvInv p.1 p.2
     | .error e => e = .badIndex) := by
  cases op with
  | defaultCtor =>
    exact envInv_append h (by simp [OptInv, optional.defaultCtor])
      (by simp [optional.defaultCtor])
  | nulloptCtor =>
    exact envInv_append h (by simp [OptInv, optional.nulloptCtor])
      (by simp [optional.nulloptCtor])
  | valueCtor v =>
    exact envInv_append h (by simp [OptInv, optional.valueCtor])
      (by simp [optional.valueCtor]; omega)
  | copyCtor src =>
    simp only [step]
    cases hget : env[src]? with
    | none => simp
    | some a =>
      have ha : OptInv a := h.1 a (List.getElem?_mem hget)
      simp only
      rw [copyCtor_eq a st ha]
      refine envInv_append h ha ?_
      cases hv : a.has_value_ <;> simp [hv] <;> omega
  | moveCtor src =>
    simp only [step]
    cases hget : env[src]? with
    | none => simp
    | some a =>
      have ha : OptInv a := h.1 a (List.getElem?_mem hget)
      simp only
      rw [moveCtor_eq a st ha]
      have hmid : EnvInv (env.set src ⟨false, none⟩)
          ⟨st.ctors, st.dtors + (if a.has_value_ then 1 else 0)⟩ :=
        envInv_set h hget (by simp [OptInv])
          (by cases hv : a.has_value_ <;> simp [hv] <;> omega)
      refine envInv_append hmid ha ?_
      cases hv : a.has_value_ <;> simp [hv] <;> omega
  | copyAssign dst src =>
    simp only [step, copyAssignMember]
    cases hd : env[dst]? with
    | none => simp
    | some a =>
      cases hs : env[src]? with
      | none => simp
      | some b =>
        simp only
        by_cases hij : dst = src
        · simpa [hij] using h
        · have ha : OptInv a := h.1 a (List.getElem?_mem hd)
          have hb : OptInv b := h.1 b (List.getElem?_mem hs)
          simp only [if_neg hij]
          rw [copyAssignDistinct_eq a b st ha hb]
          refine envInv_set h hd hb ?_
          cases hva : a.has_value_ <;> cases hvb : b.has_value_ <;>
            simp [hva, hvb] <;> omega
  | moveAssign dst src =>
    simp only [step, moveAssignMember]
    cases hd : env[dst]? with
    | none => simp
    | some a =>
      cases hs : env[src]? with
      | none => simp
      | some b =>
        simp only
        by_cases hij : dst = src
        · simpa [hij] using h
        · have ha : OptInv a := h.1 a (List.getElem?_mem hd)
          have hb : OptInv b := h.1 b (List.getElem?_mem hs)
          simp only [if_neg hij]
          rw [moveAssignDistinct_eq a b st ha hb]
          refine envInv_set2 h hd hs hij hb (by simp [OptInv]) ?_
          cases hva : a.has_value_ <;> cases hvb : b.has_value_ <;>
            simp [hva, hvb] <;> omega
  | valueAssign dst v =>
    simp only [step]
    cases hd : env[dst]? with
    | none => simp
    | some a =>
      have ha : OptInv a := h.1 a (List.getElem?_mem hd)
      simp only
      rw [valueAssign_eq a v st ha]
      refine envInv_set h hd (by simp [OptInv]) ?_
      cases hva : a.has_value_ <;> simp [hva] <;> omega
  | nulloptAssign dst =>
    simp only [step, optional.nulloptAssign]
    cases hd : env[dst]? with
    | none => simp
    | some a =>
      have ha : OptInv a := h.1 a (List.getElem?_mem hd)
      simp only
      rw [reset_eq a st ha]
      refine envInv_set h hd (by simp [OptInv]) ?_
      cases hva : a.has_value_ <;> simp [hva] <;> omega
  | resetOp dst =>
    simp only [step]
    cases hd : env[dst]? with
    | none => simp
    | some a =>
      have ha : OptInv a := h.1 a (List.getElem?_mem hd)
      simp only
      rw [reset_eq a st ha]
      refine envInv_set h hd (by simp [OptInv]) ?_
      cases hva : a.has_value_ <;> simp [hva] <;> omega
  | swapOp i j =>
    simp only [step, swapFree, swapMember]
    cases hd : env[i]? with
    | none => simp
    | some a =>
      cases hs : env[j]? with
      | none => simp
      | some b =>
        simp only
        by_cases hij : i = j
        · simpa [hij] using h
        · have ha : OptInv a := h.1 a (List.getElem?_mem hd)
          have hb : OptInv b := h.1 b (List.getElem?_mem hs)
          simp only [if_neg hij]
          rw [swapDistinct_eq a b st ha hb]
          refine envInv_set2 h hd hs hij hb ha ?_
          cases hva : a.has_value_ <;> cases hvb : b.has_value_ <;>
            simp [hva, hvb] <;> omega
  | dtor dst =>
    simp only [step]
    cases hd : env[dst]? with
    | none => simp
    | some a =>
      have ha : OptInv a := h.1 a (List.getElem?_mem hd)
      simp only
      rw [dtorRun_eq a st ha]
      refine envInv_erase h hd ?_
      cases hva : a.has_value_ <;> simp [hva] <;> omega

/-- Every sequence of public operations from an invariant state either
ends in an invariant state or fails only with `badIndex` — never with
a double-destroy, a leak, a use of destroyed storage, or an assertion
failure. -/
theorem run_preserves {T : Type} (ops : List (Op T)) (env : List (optional T))
    (st : Stats) (h : EnvInv env st) :
    (match run env st ops with
     | .ok p => EnvInv p.1 p.2
     | .error e => e = .badIndex) := by
  induction ops generalizing env st with
  | nil => simpa [run] using h
  | cons op ops ih =>
    have hs := step_preserves env st op h
    cases hstep : step env st op with
    | error e =>
      rw [hstep] at hs
      simpa [run, hstep] using hs
    | ok p =>
      rw [hstep] at hs
      simpa [run, hstep] using ih p.1 p.2 hs

end fit

open fit

/-- C1: for every contained type `T` and every sequence of public
operations on any collection of `optional<T>` objects, executing from
a state where every object's storage holds a live `T` exactly when its
`has_value_` flag is set (and the construction/destruction balance
matches the number of live values), the sequence never commits a
lifecycle error — no ghost value, no use of destroyed storage, no
double-destroy, no leak; the only possible failure is naming an object
that does not exist.  Afterwards the storage-iff-`has_value()`
invariant and the balance still hold, and if every object has been
destroyed the balance is exactly zero: each contained value was
destroyed exactly once. -/
theorem C1_storage_iff_has_value {T : Type} (ops : List (Op T))
    (env : List (optional T)) (st : Stats) (h : EnvInv env st) :
    (match run env st ops with
     | .ok p => EnvInv p.1 p.2
     | .error e => e = .badIndex) ∧
    (∀ st2, run env st ops = .ok ([], st2) → st2.ctors = st2.dtors) := by
  refine ⟨run_preserves ops env st h, ?_⟩
  intro st2 hrun
  have hp := run_preserves ops env st h
  rw [hrun] at hp
  have hbal := hp.2
  simpa [liveCount] using hbal

/-- C1 witness: a concrete run over `Int` exercising construction,
swap, copy- and move-assignment, reset and destruction, starting and
ending with the empty environment. -/
theorem C1_witness :
    EnvInv ([] : List (optional Int)) ⟨0, 0⟩ ∧
    ((match run ([] : List (optional Int)) ⟨0, 0⟩
        [.valueCtor 42, .valueCtor 55, .defaultCtor, .swapOp 0 1,
         .copyAssign 2 0, .moveAssign 1 2, .resetOp 0, .dtor 2, .dtor 1,
         .dtor 0] with
      | .ok p => EnvInv p.1 p.2
      | .error e => e = .badIndex) ∧
     (∀ st2, run ([] : List (optional Int)) ⟨0, 0⟩
        [.valueCtor 42, .valueCtor 55, .defaultCtor, .swapOp 0 1,
         .copyAssign 2 0, .moveAssign 1 2, .resetOp 0, .dtor 2, .dtor 1,
         .dtor 0] = .ok ([], st2) → st2.ctors = st2.dtors)) :=
  ⟨by decide, C1_storage_iff_has_value
      [.valueCtor 42, .valueCtor 55, .defaultCtor, .swapOp 0 1,
       .copyAssign 2 0, .moveAssign 1 2, .resetOp 0, .dtor 2, .dtor 1,
       .dtor 0] ([] : List (optional Int)) ⟨0, 0⟩ (by decide)⟩

/-- C2 counterexample: on the empty `optional<Int>`, `value()` fails
through its `assert(has_value_)`, while `operator*` and `operator->`
contain no assertion at all — they read the destroyed storage
(undefined behaviour), a different failure mode.  The claim that the
dereference operators fail with the same fatal assertion as `value()`
is therefore false on the code. -/
theorem C2_counterexample :
    optional.value (⟨false, none⟩ : optional Int) = .error .assertFailed ∧
    optional.derefStar (⟨false, none⟩ : optional Int) = .error .readDead ∧
    optional.derefArrow (⟨false, none⟩ : optional Int) = .error .readDead ∧
    Err.readDead ≠ Err.assertFailed :=
  ⟨rfl, rfl, rfl, by decide⟩

/-- C2 (amended): on a well-formed optional that holds a value,
`operator->` and `operator*` agree exactly with `value()`; on an empty
optional, `value()` fails its fatal assertion while the dereference
operators perform no check and access the destroyed storage (undefined
behaviour), so they share the precondition but not the failure
mode. -/
theorem C2_deref_vs_value {T : Type} (o : optional T) (h : OptInv o) :
    (o.has_value_ = true →
      optional.derefStar o = optional.value o ∧
      optional.derefArrow o = optional.value o ∧
      ∃ x, o.value_ = some x ∧ optional.value o = .ok x) ∧
    (o.has_value_ = false →
      optional.value o = .error .assertFailed ∧
      optional.derefStar o = .error .readDead ∧
      optional.derefArrow o = .error .readDead) := by
  obtain ⟨hv, s⟩ := o
  cases hv <;> cases s
  · exact ⟨by simp, fun _ => ⟨rfl, rfl, rfl⟩⟩
  · exact absurd h (by simp [OptInv])
  · exact absurd h (by simp [OptInv])
  · rename_i x
    exact ⟨fun _ => ⟨rfl, rfl, x, rfl, rfl⟩, by simp⟩

/-- C2 witness: the present case at a concrete input. -/
theorem C2_witness :
    OptInv (⟨true, some (7 : Int)⟩ : optional Int) ∧
    (optional.derefStar (⟨true, some (7 : Int)⟩ : optional Int) =
        optional.value ⟨true, some 7⟩ ∧
      optional.derefArrow (⟨true, some (7 : Int)⟩ : optional Int) =
        optional.value ⟨true, some 7⟩ ∧
      ∃ x, (⟨true, some (7 : Int)⟩ : optional Int).value_ = some x ∧
        optional.value (⟨true, some (7 : Int)⟩ : optional Int) = .ok x) :=
  ⟨by decide, (C2_deref_vs_value _ (by decide)).1 rfl⟩

/-- C3: move construction from a well-formed source yields a
destination with the source's presence flag and (moved) value, and a
source that is always empty afterwards; when the source held a value,
exactly one construction (into the destination) and one destruction
(of the source's value) happen; when the source was empty, it is
returned unchanged and no `T` is constructed or destroyed. -/
theorem C3_move_construct {T : Type} (a : optional T) (st : Stats)
    (h : OptInv a) :
    optional.moveCtor a st =
      .ok (⟨a.has_value_, a.value_⟩, ⟨false, none⟩,
        if a.has_value_ then ⟨st.ctors + 1, st.dtors + 1⟩ else st) ∧
    (a.has_value_ = false → optional.moveCtor a st = .ok (⟨false, none⟩, a, st)) := by
  obtain ⟨hv, s⟩ := a
  cases hv <;> cases s
  · exact ⟨rfl, fun _ => rfl⟩
  · exact absurd h (by simp [OptInv])
  · exact absurd h (by simp [OptInv])
  · exact ⟨rfl, by simp⟩

/-- C3 witness at a present source. -/
theorem C3_witness :
    OptInv (⟨true, some (9 : Int)⟩ : optional Int) ∧
    optional.moveCtor (⟨true, some (9 : Int)⟩ : optional Int) ⟨1, 0⟩ =
      .ok (⟨true, some 9⟩, ⟨false, none⟩, ⟨2, 1⟩) :=
  ⟨by decide, (C3_move_construct _ _ (by decide)).1⟩

/-- C8: `value_or(d)` returns the contained value when present and `d`
when empty; the embedding of the `const` method consumes no state, so
the optional is untouched by construction. -/
theorem C8_value_or {T : Type} (o : optional T) (d : T) (h : OptInv o) :
    (o.has_value_ = true →
      ∃ x, o.value_ = some x ∧ optional.value_or o d = .ok x) ∧
    (o.has_value_ = false → optional.value_or o d = .ok d) := by
  obtain ⟨hv, s⟩ := o
  cases hv <;> cases s
  · exact ⟨by simp, fun _ => rfl⟩
  · exact absurd h (by simp [OptInv])
  · exact absurd h (by simp [OptInv])
  · rename_i x
    exact ⟨fun _ => ⟨x, rfl, rfl⟩, by simp⟩

/-- C8 witness: both the present and the default-constructed empty
case, the latter matching the spec's
`value_or(d)` on a default-constructed optional. -/
theorem C8_witness :
    (OptInv (⟨true, some (3 : Int)⟩ : optional Int) ∧
      (∃ x, (⟨true, some (3 : Int)⟩ : optional Int).value_ = some x ∧
        optional.value_or (⟨true, some (3 : Int)⟩ : optional Int) 8 = .ok x)) ∧
    (OptInv (optional.defaultCtor : optional Int) ∧
      optional.value_or (optional.defaultCtor : optional Int) 8 = .ok 8) :=
  ⟨⟨by decide, (C8_value_or _ 8 (by decide)).1 rfl⟩,
   ⟨by decide, (C8_value_or _ 8 (by decide)).2 rfl⟩⟩

/-- C9: constructing from the `nullopt` sentinel produces exactly the
default-constructed state; assigning the sentinel is literally a call
to `reset()`, which destroys the value and empties the optional when a
value is present and does nothing when it is already empty. -/
theorem C9_sentinel {T : Type} (o : optional T) (st : Stats) (h : OptInv o) :
    (optional.nulloptCtor nullopt : optional T) = optional.defaultCtor ∧
    optional.nulloptAssign o nullopt st = optional.reset o st ∧
    (o.has_value_ = true →
      optional.reset o st = .ok (⟨false, none⟩, ⟨st.ctors, st.dtors + 1⟩)) ∧
    (o.has_value_ = false → optional.reset o st = .ok (o, st)) := by
  obtain ⟨hv, s⟩ := o
  cases hv <;> cases s
  · exact ⟨rfl, rfl, by simp, fun _ => rfl⟩
  · exact absurd h (by simp [OptInv])
  · exact absurd h (by simp [OptInv])
  · exact ⟨rfl, rfl, fun _ => rfl, by simp⟩

/-- C9 witness: sentinel assignment on a present optional. -/
theorem C9_witness :
    OptInv (⟨true, some (4 : Int)⟩ : optional Int) ∧
    optional.nulloptAssign (⟨true, some (4 : Int)⟩ : optional Int) nullopt ⟨1, 0⟩ =
      optional.reset ⟨true, some 4⟩ ⟨1, 0⟩ ∧
    optional.reset (⟨true, some (4 : Int)⟩ : optional Int) ⟨1, 0⟩ =
      .ok (⟨false, none⟩, ⟨1, 1⟩) :=
  ⟨by decide, (C9_sentinel _ ⟨1, 0⟩ (by decide)).2.1,
    (C9_sentinel _ ⟨1, 0⟩ (by decide)).2.2.1 rfl⟩

/-- C10: every fallible free comparison operator (the
optional-vs-optional form over possibly different contained types and
the optional-vs-raw-value forms in both orders) succeeds on all
well-formed inputs: the `has_value()` guards short-circuit every
access to the contained value, so the error branch of the total
embedding is unreachable.  (The four `nullopt` comparison forms read
no contained value at all — they are total by their types.) -/
theorem C10_comparisons_never_access_empty {T U : Type}
    (eq ne : T → U → Bool) (o : optional T) (p : optional U) (v : U) (w : T)
    (ho : OptInv o) (hp : OptInv p) :
    (∃ b, eqOptOpt eq o p = .ok b) ∧
    (∃ b, neOptOpt ne o p = .ok b) ∧
    (∃ b, eqOptVal eq o v = .ok b) ∧
    (∃ b, neOptVal ne o v = .ok b) ∧
    (∃ b, eqValOpt eq w p = .ok b) ∧
    (∃ b, neValOpt ne w p = .ok b) := by
  obtain ⟨hvo, so⟩ := o
  obtain ⟨hvp, sp⟩ := p
  cases hvo <;> cases so <;> cases hvp <;> cases sp
  · exact ⟨⟨_, rfl⟩, ⟨_, rfl⟩, ⟨_, rfl⟩, ⟨_, rfl⟩, ⟨_, rfl⟩, ⟨_, rfl⟩⟩
  · exact absurd hp (by simp [OptInv])
  · exact absurd hp (by simp [OptInv])
  · exact ⟨⟨_, rfl⟩, ⟨_, rfl⟩, ⟨_, rfl⟩, ⟨_, rfl⟩, ⟨_, rfl⟩, ⟨_, rfl⟩⟩
  · exact absurd ho (by simp [OptInv])
  · exact absurd ho (by simp [OptInv])
  · exact absurd ho (by simp [OptInv])
  · exact absurd ho (by simp [OptInv])
  · exact absurd ho (by simp [OptInv])
  · exact absurd ho (by simp [OptInv])
  · exact absurd ho (by simp [OptInv])
  · exact absurd ho (by simp [OptInv])
  · exact ⟨⟨_, rfl⟩, ⟨_, rfl⟩, ⟨_, rfl⟩, ⟨_, rfl⟩, ⟨_, rfl⟩, ⟨_, rfl⟩⟩
  · exact absurd hp (by simp [OptInv])
  · exact absurd hp (by simp [OptInv])
  · exact ⟨⟨_, rfl⟩, ⟨_, rfl⟩, ⟨_, rfl⟩, ⟨_, rfl⟩, ⟨_, rfl⟩, ⟨_, rfl⟩⟩

/-- C10 witness: a present and an empty operand with `Int`/`Int`
comparisons. -/
theorem C10_witness :
    OptInv (⟨true, some (6 : Int)⟩ : optional Int) ∧
    OptInv (⟨false, none⟩ : optional Int) ∧
    ((∃ b, eqOptOpt (fun a b => a == b) (⟨true, some (6 : Int)⟩ : optional Int)
        (⟨false, none⟩ : optional Int) = .ok b) ∧
     (∃ b, neOptOpt (fun a b => a != b) (⟨true, some (6 : Int)⟩ : optional Int)
        (⟨false, none⟩ : optional Int) = .ok b) ∧
     (∃ b, eqOptVal (fun a b => a == b) (⟨true, some (6 : Int)⟩ : optional Int)
        (5 : Int) = .ok b) ∧
     (∃ b, neOptVal (fun a b => a != b) (⟨true, some (6 : Int)⟩ : optional Int)
        (5 : Int) = .ok b) ∧
     (∃ b, eqValOpt (fun a b => a == b) (5 : Int)
        (⟨false, none⟩ : optional Int) = .ok b) ∧
     (∃ b, neValOpt (fun a b => a != b) (5 : Int)
        (⟨false, none⟩ : optional Int) = .ok b)) :=
  ⟨by decide, by decide,
    C10_comparisons_never_access_empty _ _ _ _ _ _ (by decide) (by decide)⟩

/-- C4: move assignment between distinct well-formed objects follows
the four presence cases — both present: move-assign into the existing
`T` (no construction or destruction on the target slot, one
destruction of the source's value); target present, source empty:
destroy the target's value and become empty; target empty, source
present: move-construct in place; both empty: no-op — and whenever the
source held a value it is destroyed (`dtors` grows by one) and the
source is marked empty; self-move-assignment is caught by the
`&other == this` identity check and is a state-preserving no-op. -/
theorem C4_move_assignment {T : Type} (a b : optional T) (st : Stats)
    (ha : OptInv a) (hb : OptInv b) :
    (a.has_value_ = true → b.has_value_ = true →
      optional.moveAssignDistinct a b st =
        .ok (⟨true, b.value_⟩, ⟨false, none⟩, ⟨st.ctors, st.dtors + 1⟩)) ∧
    (a.has_value_ = true → b.has_value_ = false →
      optional.moveAssignDistinct a b st =
        .ok (⟨false, none⟩, b, ⟨st.ctors, st.dtors + 1⟩)) ∧
    (a.has_value_ = false → b.has_value_ = true →
      optional.moveAssignDistinct a b st =
        .ok (⟨true, b.value_⟩, ⟨false, none⟩, ⟨st.ctors + 1, st.dtors + 1⟩)) ∧
    (a.has_value_ = false → b.has_value_ = false →
      optional.moveAssignDistinct a b st = .ok (a, b, st)) ∧
    (b.has_value_ = true →
      ∃ a2 st2, optional.moveAssignDistinct a b st =
        .ok (a2, ⟨false, none⟩, st2) ∧ st2.dtors = st.dtors + 1) ∧
    moveAssignMember [a] st 0 0 = .ok ([a], st) := by
  obtain ⟨hva, sa⟩ := a
  obtain ⟨hvb, sb⟩ := b
  cases hva <;> cases sa <;> cases hvb <;> cases sb
  · exact ⟨by simp, by simp, by simp, fun _ _ => rfl, by simp, rfl⟩
  · exact absurd hb (by simp [OptInv])
  · exact absurd hb (by simp [OptInv])
  · exact ⟨by simp, by simp, fun _ _ => rfl, by simp,
      fun _ => ⟨_, _, rfl, rfl⟩, rfl⟩
  · exact absurd ha (by simp [OptInv])
  · exact absurd ha (by simp [OptInv])
  · exact absurd ha (by simp [OptInv])
  · exact absurd ha (by simp [OptInv])
  · exact absurd ha (by simp [OptInv])
  · exact absurd ha (by simp [OptInv])
  · exact absurd ha (by simp [OptInv])
  · exact absurd ha (by simp [OptInv])
  · exact ⟨by simp, fun _ _ => rfl, by simp, by simp, by simp, rfl⟩
  · exact absurd hb (by simp [OptInv])
  · exact absurd hb (by simp [OptInv])
  · exact ⟨fun _ _ => rfl, by simp, by simp, by simp,
      fun _ => ⟨_, _, rfl, rfl⟩, rfl⟩

/-- C4 witness: both-present move assignment over `Int`, and the
self-move no-op. -/
theorem C4_witness :
    OptInv (⟨true, some (1 : Int)⟩ : optional Int) ∧
    OptInv (⟨true, some (2 : Int)⟩ : optional Int) ∧
    optional.moveAssignDistinct (⟨true, some (1 : Int)⟩ : optional Int)
      ⟨true, some 2⟩ ⟨2, 0⟩ =
      .ok (⟨true, some 2⟩, ⟨false, none⟩, ⟨2, 1⟩) ∧
    moveAssignMember [(⟨true, some (1 : Int)⟩ : optional Int)] ⟨2, 0⟩ 0 0 =
      .ok ([⟨true, some 1⟩], ⟨2, 0⟩) :=
  ⟨by decide, by decide,
    (C4_move_assignment _ _ ⟨2, 0⟩ (by decide) (by decide)).1 rfl rfl,
    (C4_move_assignment (⟨true, some (1 : Int)⟩ : optional Int)
      ⟨true, some 2⟩ ⟨2, 0⟩ (by decide) (by decide)).2.2.2.2.2⟩

/-- C5: copy assignment between distinct well-formed objects follows
the four presence cases — both present: the contained `T` is
copy-assigned in place with no construction and no destruction (the
counters do not move); target present, source empty: the target's
value is destroyed and the target becomes empty; target empty, source
present: a copy is constructed in place; both empty: no-op (the source
is a `const` reference and is never modified) — and self-assignment is
caught by the `&other == this` identity check and is a no-op. -/
theorem C5_copy_assignment {T : Type} (a b : optional T) (st : Stats)
    (ha : OptInv a) (hb : OptInv b) :
    (a.has_value_ = true → b.has_value_ = true →
      optional.copyAssignDistinct a b st = .ok (⟨true, b.value_⟩, st)) ∧
    (a.has_value_ = true → b.has_value_ = false →
      optional.copyAssignDistinct a b st =
        .ok (⟨false, none⟩, ⟨st.ctors, st.dtors + 1⟩)) ∧
    (a.has_value_ = false → b.has_value_ = true →
      optional.copyAssignDistinct a b st =
        .ok (⟨true, b.value_⟩, ⟨st.ctors + 1, st.dtors⟩)) ∧
    (a.has_value_ = false → b.has_value_ = false →
      optional.copyAssignDistinct a b st = .ok (a, st)) ∧
    copyAssignMember [a] st 0 0 = .ok ([a], st) := by
  obtain ⟨hva, sa⟩ := a
  obtain ⟨hvb, sb⟩ := b
  cases hva <;> cases sa <;> cases hvb <;> cases sb
  · exact ⟨by simp, by simp, by simp, fun _ _ => rfl, rfl⟩
  · exact absurd hb (by simp [OptInv])
  · exact absurd hb (by simp [OptInv])
  · exact ⟨by simp, by simp, fun _ _ => rfl, by simp, rfl⟩
  · exact absurd ha (by simp [OptInv])
  · exact absurd ha (by simp [OptInv])
  · exact absurd ha (by simp [OptInv])
  · exact absurd ha (by simp [OptInv])
  · exact absurd ha (by simp [OptInv])
  · exact absurd ha (by simp [OptInv])
  · exact absurd ha (by simp [OptInv])
  · exact absurd ha (by simp [OptInv])
  · exact ⟨by simp, fun _ _ => rfl, by simp, by simp, rfl⟩
  · exact absurd hb (by simp [OptInv])
  · exact absurd hb (by simp [OptInv])
  · exact ⟨fun _ _ => rfl, by simp, by simp, by simp, rfl⟩

/-- C5 witness: target present and source empty (destroy and become
empty), and the self-assignment no-op. -/
theorem C5_witness :
    OptInv (⟨true, some (1 : Int)⟩ : optional Int) ∧
    OptInv (⟨false, none⟩ : optional Int) ∧
    optional.copyAssignDistinct (⟨true, some (1 : Int)⟩ : optional Int)
      ⟨false, none⟩ ⟨1, 0⟩ = .ok (⟨false, none⟩, ⟨1, 1⟩) ∧
    copyAssignMember [(⟨true, some (1 : Int)⟩ : optional Int)] ⟨1, 0⟩ 0 0 =
      .ok ([⟨true, some 1⟩], ⟨1, 0⟩) :=
  ⟨by decide, by decide,
    (C5_copy_assignment _ _ ⟨1, 0⟩ (by decide) (by decide)).2.1 rfl rfl,
    (C5_copy_assignment (⟨true, some (1 : Int)⟩ : optional Int)
      ⟨false, none⟩ ⟨1, 0⟩ (by decide) (by decide)).2.2.2.2⟩

/-- C6: member swap between distinct well-formed objects exchanges
contents in all four presence combinations — both present: the two
values are exchanged directly with no construction or destruction;
exactly one present: the value is move-constructed into the empty side
(which becomes present) and destroyed on the side it came from (which
becomes empty); both empty: no-op.  Self-swap is caught by the
`&other == this` identity check and preserves the state, and the free
`swap(a, b)` is definitionally the member swap. -/
theorem C6_swap {T : Type} (a b : optional T) (st : Stats)
    (ha : OptInv a) (hb : OptInv b) :
    (a.has_value_ = true → b.has_value_ = true →
      optional.swapDistinct a b st =
        .ok (⟨true, b.value_⟩, ⟨true, a.value_⟩, st)) ∧
    (a.has_value_ = true → b.has_value_ = false →
      optional.swapDistinct a b st =
        .ok (⟨false, none⟩, ⟨true, a.value_⟩, ⟨st.ctors + 1, st.dtors + 1⟩)) ∧
    (a.has_value_ = false → b.has_value_ = true →
      optional.swapDistinct a b st =
        .ok (⟨true, b.value_⟩, ⟨false, none⟩, ⟨st.ctors + 1, st.dtors + 1⟩)) ∧
    (a.has_value_ = false → b.has_value_ = false →
      optional.swapDistinct a b st = .ok (a, b, st)) ∧
    swapMember [a] st 0 0 = .ok ([a], st) ∧
    (∀ (env2 : List (optional T)) (st2 : Stats) (i j : Nat),
      swapFree env2 st2 i j = swapMember env2 st2 i j) := by
  obtain ⟨hva, sa⟩ := a
  obtain ⟨hvb, sb⟩ := b
  cases hva <;> cases sa <;> cases hvb <;> cases sb
  · exact ⟨by simp, by simp, by simp, fun _ _ => rfl, rfl, fun _ _ _ _ => rfl⟩
  · exact absurd hb (by simp [OptInv])
  · exact absurd hb (by simp [OptInv])
  · exact ⟨by simp, by simp, fun _ _ => rfl, by simp, rfl, fun _ _ _ _ => rfl⟩
  · exact absurd ha (by simp [OptInv])
  · exact absurd ha (by simp [OptInv])
  · exact absurd ha (by simp [OptInv])
  · exact absurd ha (by simp [OptInv])
  · exact absurd ha (by simp [OptInv])
  · exact absurd ha (by simp [OptInv])
  · exact absurd ha (by simp [OptInv])
  · exact absurd ha (by simp [OptInv])
  · exact ⟨by simp, fun _ _ => rfl, by simp, by simp, rfl, fun _ _ _ _ => rfl⟩
  · exact absurd hb (by simp [OptInv])
  · exact absurd hb (by simp [OptInv])
  · exact ⟨fun _ _ => rfl, by simp, by simp, by simp, rfl, fun _ _ _ _ => rfl⟩

/-- C6 witness: swap of a present and an empty optional, the self-swap
no-op, and the free-function delegation at a concrete environment. -/
theorem C6_witness :
    OptInv (⟨true, some (3 : Int)⟩ : optional Int) ∧
    OptInv (⟨false, none⟩ : optional Int) ∧
    optional.swapDistinct (⟨true, some (3 : Int)⟩ : optional Int)
      ⟨false, none⟩ ⟨1, 0⟩ =
      .ok (⟨false, none⟩, ⟨true, some 3⟩, ⟨2, 1⟩) ∧
    swapMember [(⟨true, some (3 : Int)⟩ : optional Int)] ⟨1, 0⟩ 0 0 =
      .ok ([⟨true, some 3⟩], ⟨1, 0⟩) ∧
    swapFree [(⟨true, some (3 : Int)⟩ : optional Int), ⟨false, none⟩]
      ⟨1, 0⟩ 0 1 =
      swapMember [(⟨true, some (3 : Int)⟩ : optional Int), ⟨false, none⟩]
        ⟨1, 0⟩ 0 1 :=
  ⟨by decide, by decide,
    (C6_swap _ _ ⟨1, 0⟩ (by decide) (by decide)).2.1 rfl rfl,
    (C6_swap (⟨true, some (3 : Int)⟩ : optional Int) ⟨false, none⟩ ⟨1, 0⟩
      (by decide) (by decide)).2.2.2.2.1,
    (C6_swap (⟨true, some (3 : Int)⟩ : optional Int) ⟨false, none⟩ ⟨1, 0⟩
      (by decide) (by decide)).2.2.2.2.2 _ _ 0 1⟩

/-- C7: the equality protocol on well-formed optionals, for a
contained-type equality `eq` whose `ne` is its pointwise negation and
which is symmetric: an optional equals `nullopt` exactly when it is
empty, with the mirrored form identical; two optionals are equal
exactly when both are present with `eq`-equal values or both absent;
an optional equals a raw value exactly when present with an `eq`-equal
value (so an empty optional is unequal to every raw value), with the
mirrored form identical; and every `!=` form is the pointwise negation
of the corresponding `==` form. -/
theorem C7_equality_protocol {T : Type} (eq ne : T → T → Bool)
    (hne : ∀ a b, ne a b = !(eq a b)) (hsym : ∀ a b, eq a b = eq b a)
    (o p : optional T) (v : T) (ho : OptInv o) (hp : OptInv p) :
    (eqOptNullopt o nullopt = !(o.has_value_)) ∧
    (eqNulloptOpt nullopt o = eqOptNullopt o nullopt) ∧
    (neOptNullopt o nullopt = !(eqOptNullopt o nullopt)) ∧
    (neNulloptOpt nullopt o = !(eqNulloptOpt nullopt o)) ∧
    (eqOptOpt eq o p = .ok (match o.value_, p.value_ with
      | some x, some y => eq x y
      | none, none => true
      | _, _ => false)) ∧
    (neOptOpt ne o p = Except.map (fun b => !b) (eqOptOpt eq o p)) ∧
    (eqOptVal eq o v = .ok (match o.value_ with
      | some x => eq x v
      | none => false)) ∧
    (eqValOpt eq v o = eqOptVal eq o v) ∧
    (neOptVal ne o v = Except.map (fun b => !b) (eqOptVal eq o v)) ∧
    (neValOpt ne v o = Except.map (fun b => !b) (eqValOpt eq v o)) := by
  obtain ⟨hvo, so⟩ := o
  obtain ⟨hvp, sp⟩ := p
  cases hvo <;> cases so <;> cases hvp <;> cases sp
  · exact ⟨rfl, rfl, rfl, rfl, rfl, rfl, rfl, rfl, rfl, rfl⟩
  · exact absurd hp (by simp [OptInv])
  · exact absurd hp (by simp [OptInv])
  · exact ⟨rfl, rfl, rfl, rfl, rfl, rfl, rfl, rfl, rfl, rfl⟩
  · exact absurd ho (by simp [OptInv])
  · exact absurd ho (by simp [OptInv])
  · exact absurd ho (by simp [OptInv])
  · exact absurd ho (by simp [OptInv])
  · exact absurd ho (by simp [OptInv])
  · exact absurd ho (by simp [OptInv])
  · exact absurd ho (by simp [OptInv])
  · exact absurd ho (by simp [OptInv])
  · rename_i x
    exact ⟨rfl, rfl, rfl, rfl, rfl, rfl, rfl,
      congrArg Except.ok (hsym v x), congrArg Except.ok (hne x v),
      congrArg Except.ok (hne v x)⟩
  · exact absurd hp (by simp [OptInv])
  · exact absurd hp (by simp [OptInv])
  · rename_i x y
    exact ⟨rfl, rfl, rfl, rfl, rfl, congrArg Except.ok (hne x y), rfl,
      congrArg Except.ok (hsym v x), congrArg Except.ok (hne x v),
      congrArg Except.ok (hne v x)⟩

/-- C7 witness over `Bool` with its `==`/`!=`, at a present and an
empty operand. -/
theorem C7_witness :
    (∀ a b : Bool, (a != b) = !(a == b)) ∧
    (∀ a b : Bool, (a == b) = (b == a)) ∧
    OptInv (⟨true, some true⟩ : optional Bool) ∧
    OptInv (⟨false, none⟩ : optional Bool) ∧
    ((eqOptNullopt (⟨true, some true⟩ : optional Bool) nullopt = false) ∧
     (eqNulloptOpt nullopt (⟨true, some true⟩ : optional Bool) =
        eqOptNullopt ⟨true, some true⟩ nullopt) ∧
     (neOptNullopt (⟨true, some true⟩ : optional Bool) nullopt =
        !(eqOptNullopt ⟨true, some true⟩ nullopt)) ∧
     (neNulloptOpt nullopt (⟨true, some true⟩ : optional Bool) =
        !(eqNulloptOpt nullopt ⟨true, some true⟩)) ∧
     (eqOptOpt (fun a b => a == b) (⟨true, some true⟩ : optional Bool)
        ⟨false, none⟩ = .ok false) ∧
     (neOptOpt (fun a b => a != b) (⟨true, some true⟩ : optional Bool)
        ⟨false, none⟩ =
        Except.map (fun b => !b)
          (eqOptOpt (fun a b => a == b) ⟨true, some true⟩ ⟨false, none⟩)) ∧
     (eqOptVal (fun a b => a == b) (⟨true, some true⟩ : optional Bool)
        false = .ok false) ∧
     (eqValOpt (fun a b => a == b) false (⟨true, some true⟩ : optional Bool) =
        eqOptVal (fun a b => a == b) ⟨true, some true⟩ false) ∧
     (neOptVal (fun a b => a != b) (⟨true, some true⟩ : optional Bool)
        false =
        Except.map (fun b => !b)
          (eqOptVal (fun a b => a == b) ⟨true, some true⟩ false)) ∧
     (neValOpt (fun a b => a != b) false (⟨true, some true⟩ : optional Bool) =
        Except.map (fun b => !b)
          (eqValOpt (fun a b => a == b) false ⟨true, some true⟩))) :=
  ⟨by decide, by decide, by decide, by decide,
    C7_equality_protocol (fun a b => a == b) (fun a b => a != b)
      (by decide) (by decide) ⟨true, some true⟩ ⟨false, none⟩ false
      (by decide) (by decide)⟩
